import Mathlib

/-!
Verification of the `EncryptedMapGame` confidential-position ledger and its
client-side decryption-authorization flow.

The ledger contract (`EncryptedMapGame.sol`) stores, for each player address,
a pair of FHE-encrypted 8-bit coordinates plus a plaintext `active` flag.
We embed the contract shallowly: an encrypted integer (`euint8` / `euint32`)
is modelled by its decrypted value together with an opaque handle identifier,
and every FHE library operation is modelled by its plaintext denotation
(unsigned arithmetic with wrap-around at the bit width, comparisons, and the
homomorphic select as a plaintext conditional).  The ledger state is a total
map from addresses to position records (Solidity mappings default to the
zero record), an access-control list of (handle, grantee) grants, and a
fresh-handle counter.  A failed call reverts, so the runner keeps the prior
state on error, mirroring EVM semantics.
-/

namespace EncryptedMapGame

/-- MIN_COORDINATE constant of the contract. -/
def MIN_COORDINATE : Nat := 1

/-- MAX_COORDINATE constant of the contract. -/
def MAX_COORDINATE : Nat := 10

/-- Addresses are modelled as natural numbers. -/
abbrev Addr := Nat

/-- Ciphertext modelled by its handle identifier and its decrypted value.
The ledger itself never observes `value`; it appears here because the spec
speaks about decrypted values of stored ciphertexts. -/
structure Ciphertext where
  handle : Nat
  value : Nat
  deriving DecidableEq, Repr

/-- PlayerPosition record: two encrypted coordinates and the plaintext
`active` flag, exactly as in the contract struct. -/
structure PlayerPosition where
  x : Ciphertext
  y : Ciphertext
  active : Bool
  deriving DecidableEq, Repr

/-- Grantee of an FHE access grant: the contract itself (`FHE.allowThis`) or
a user address (`FHE.allow`). -/
inductive Grantee where
  | contractSelf : Grantee
  | user : Addr → Grantee
  deriving DecidableEq, Repr

/-- Errors declared by the contract. -/
inductive GameError where
  | PlayerAlreadyJoined : GameError
  | PlayerNotRegistered : GameError
  deriving DecidableEq, Repr

/-- Default value of a Solidity `mapping(address => PlayerPosition)` entry:
the all-zero record with `active = false`. -/
def emptyPosition : PlayerPosition :=
  { x := ⟨0, 0⟩, y := ⟨0, 0⟩, active := false }

/-- Ledger state: the `_players` mapping, the FHE access-control list
(pairs of ciphertext handle and grantee), and a counter supplying fresh
ciphertext handles. -/
structure LedgerState where
  players : Addr → PlayerPosition
  acl : List (Nat × Grantee)
  nextHandle : Nat

/-- State of a freshly deployed contract: every mapping entry is the zero
record, no grants, no handles allocated. -/
def initialState : LedgerState :=
  { players := fun _ => emptyPosition, acl := [], nextHandle := 0 }

/-- Plaintext denotation of `_randomCoordinate`: the 8-bit random draw `r`
is widened to 32 bits (`FHE.asEuint32`), reduced modulo `MAX_COORDINATE`
(`FHE.rem`), shifted by `MIN_COORDINATE` (`FHE.add`, wrapping at 2^32), and
narrowed back to 8 bits (`FHE.asEuint8`, wrapping at 2^8). -/
def randomCoordinateValue (r : Nat) : Nat :=
  let randomAs32 := r % 2 ^ 32
  let bounded := randomAs32 % MAX_COORDINATE
  let shifted := (bounded + MIN_COORDINATE) % 2 ^ 32
  shifted % 2 ^ 8

/-- Plaintext denotation of `_clampCoordinate`: `FHE.lt` then
`FHE.select(belowMinimum, minValue, coordinate)`, `FHE.gt` then
`FHE.select(aboveMaximum, maxValue, boundedMin)`. -/
def clampCoordinate (coordinate : Nat) : Nat :=
  let minValue := MIN_COORDINATE
  let maxValue := MAX_COORDINATE
  let belowMinimum := coordinate < minValue
  let boundedMin := if belowMinimum then minValue else coordinate
  let aboveMaximum := boundedMin > maxValue
  if aboveMaximum then maxValue else boundedMin

/-- Reference clamp used by the spec: `clamp(v) = min(max(v, 1), 10)`. -/
def specClamp (v : Nat) : Nat :=
  min (max v MIN_COORDINATE) MAX_COORDINATE

/-- Grants added by `_grantAccess`: `allowThis` on both coordinates, then
`allow` to the owner on both, in source order. -/
def grantAccess (acl : List (Nat × Grantee)) (p : PlayerPosition) (owner : Addr) :
    List (Nat × Grantee) :=
  acl ++ [(p.x.handle, Grantee.contractSelf), (p.y.handle, Grantee.contractSelf),
          (p.x.handle, Grantee.user owner), (p.y.handle, Grantee.user owner)]

/-- joinGame: reverts with `PlayerAlreadyJoined` when the caller is active;
otherwise stores two random coordinates (`_randomPosition`, one independent
draw per axis, `rx` and `ry` being the two underlying `FHE.randEuint8`
draws), sets `active`, and grants access.  The stored ciphertexts receive
fresh handles. -/
def joinGame (s : LedgerState) (caller : Addr) (rx ry : Nat) :
    Except GameError LedgerState :=
  let player := s.players caller
  if player.active then
    Except.error GameError.PlayerAlreadyJoined
  else
    let px : Ciphertext := ⟨s.nextHandle, randomCoordinateValue rx⟩
    let py : Ciphertext := ⟨s.nextHandle + 1, randomCoordinateValue ry⟩
    let newPlayer : PlayerPosition := { x := px, y := py, active := true }
    Except.ok
      { players := fun a => if a = caller then newPlayer else s.players a
        acl := grantAccess s.acl newPlayer caller
        nextHandle := s.nextHandle + 2 }

/-- move: reverts with `PlayerNotRegistered` when the caller is not active;
otherwise imports the two external 8-bit ciphertexts (their plaintexts `x`
and `y`), clamps each with `_clampCoordinate`, overwrites the stored
position, and grants access.  The clamped ciphertexts receive fresh
handles. -/
def move (s : LedgerState) (caller : Addr) (x y : Nat) :
    Except GameError LedgerState :=
  let player := s.players caller
  if !player.active then
    Except.error GameError.PlayerNotRegistered
  else
    let nextX : Ciphertext := ⟨s.nextHandle, clampCoordinate x⟩
    let nextY : Ciphertext := ⟨s.nextHandle + 1, clampCoordinate y⟩
    let newPlayer : PlayerPosition := { x := nextX, y := nextY, active := true }
    Except.ok
      { players := fun a => if a = caller then newPlayer else s.players a
        acl := grantAccess s.acl newPlayer caller
        nextHandle := s.nextHandle + 2 }

/-- getPlayerPosition: reverts with `PlayerNotRegistered` when the queried
player is not active; otherwise returns the two stored ciphertext handles.
The EVM supplies `msg.sender` as `caller`, but the body never uses it
(the contract comment says so explicitly). -/
def getPlayerPosition (s : LedgerState) (caller : Addr) (player : Addr) :
    Except GameError (Ciphertext × Ciphertext) :=
  let storedPlayer := s.players player
  if !storedPlayer.active then
    Except.error GameError.PlayerNotRegistered
  else
    Except.ok (storedPlayer.x, storedPlayer.y)

/-- hasJoined: total plaintext lookup of the `active` flag; a never-joined
address reads the default record of the mapping and yields `false`. -/
def hasJoined (s : LedgerState) (player : Addr) : Bool :=
  (s.players player).active

/-- gridBounds constant accessor. -/
def gridBounds : Nat × Nat := (MIN_COORDINATE, MAX_COORDINATE)

/-- Commands that mutate ledger state, with the caller identity and, for
`join`, the two underlying random draws, or, for `move`, the two submitted
plaintexts. -/
inductive Cmd where
  | join (caller : Addr) (rx ry : Nat) : Cmd
  | move (caller : Addr) (x y : Nat) : Cmd

/-- Result of executing one command. -/
def stepResult (s : LedgerState) : Cmd → Except GameError LedgerState
  | Cmd.join caller rx ry => joinGame s caller rx ry
  | Cmd.move caller x y => move s caller x y

/-- Runner with EVM revert semantics: a failed call leaves the state
exactly as it was. -/
def runCmd (s : LedgerState) (c : Cmd) : LedgerState :=
  match stepResult s c with
  | Except.ok s2 => s2
  | Except.error _ => s

/-- Execution of a command trace from a starting state. -/
def execTrace (s : LedgerState) : List Cmd → LedgerState
  | [] => s
  | c :: cs => execTrace (runCmd s c) cs

/-- Boolean detecting whether one command is a join by `a` that succeeds
in state `s`. -/
def cmdJoinOk (s : LedgerState) (a : Addr) : Cmd → Bool
  | Cmd.join caller _ _ => decide (caller = a) && !(s.players caller).active
  | Cmd.move _ _ _ => false

/-- Boolean detecting whether a trace run from `s` contains a successful
join by `a`. -/
def traceJoinOk (s : LedgerState) (a : Addr) : List Cmd → Bool
  | [] => false
  | c :: cs => cmdJoinOk s a c || traceJoinOk (runCmd s c) a cs

end EncryptedMapGame

namespace GridGameApp

/-!
Embedding of the decryption flow `handleDecrypt` of
`src/app/src/components/GridGameApp.tsx`.  The flow generates an ephemeral
keypair, builds an EIP-712 authorization message via
`instance.createEIP712(publicKey, contractAddresses, startTimeStamp,
durationDays)`, has the wallet sign it, and calls `instance.userDecrypt`
with the handle/contract pairs and the remaining fields.  `createEIP712` and
`userDecrypt` belong to the external Zama relayer SDK; the message is
modelled as the record of the exact arguments it is built over, which is
what the spec describes the authorization message to contain.
-/

/-- Ephemeral keypair returned by `instance.generateKeypair()`. -/
structure Keypair where
  publicKey : String
  privateKey : String
  deriving DecidableEq, Repr

/-- Authorization message built by `instance.createEIP712`: it is built
over exactly the ephemeral public key, the contract-address scope, the
start timestamp, and the duration in days. -/
structure EIP712Message where
  publicKey : String
  contractAddresses : List String
  startTimeStamp : String
  durationDays : String
  deriving DecidableEq, Repr

/-- createEIP712 from the relayer SDK, modelled as packaging its four
arguments into the authorization message. -/
def createEIP712 (publicKey : String) (contractAddresses : List String)
    (startTimeStamp : String) (durationDays : String) : EIP712Message :=
  { publicKey := publicKey, contractAddresses := contractAddresses,
    startTimeStamp := startTimeStamp, durationDays := durationDays }

/-- Element of the `handleContractPairs` list passed to `userDecrypt`. -/
structure HandleContractPair where
  handle : String
  contractAddress : String
  deriving DecidableEq, Repr

/-- Argument tuple submitted to the relayer by `instance.userDecrypt`. -/
structure UserDecryptArgs where
  handleContractPairs : List HandleContractPair
  privateKey : String
  publicKey : String
  signature : String
  contractAddresses : List String
  userAddress : String
  startTimeStamp : String
  durationDays : String
  deriving DecidableEq, Repr

/-- JavaScript `s.replace(pat, "")` with a string pattern: removes the
first occurrence of `pat` in `s`, scanning left to right; when `pat` does
not occur, `s` is returned unchanged. -/
def jsReplaceFirstList (pat : List Char) (s : List Char) : List Char :=
  match s with
  | [] => []
  | c :: cs =>
      if pat.isPrefixOf (c :: cs) then (c :: cs).drop pat.length
      else c :: jsReplaceFirstList pat cs

/-- String wrapper over `jsReplaceFirstList` for the two-character pattern
0x, modelling the `signature.replace` call of the source. -/
def stripHexMarker (s : String) : String :=
  String.mk (jsReplaceFirstList ['0', 'x'] s.data)

/-- Core of `handleDecrypt`, parameterized by the contract address from the
config, the two coordinate handles read from the contract, the generated
keypair, the current time in milliseconds (`Date.now()`), the wallet signer
(a function from the EIP-712 message to a signature), and the requester
address.  Returns the message handed to the signer and the argument tuple
handed to `userDecrypt`. -/
def buildDecryptRequest (contractAddr : String) (handleX handleY : String)
    (keypair : Keypair) (nowMs : Nat) (signFn : EIP712Message → String)
    (address : String) : EIP712Message × UserDecryptArgs :=
  let contractAddresses := [contractAddr]
  let startTimeStamp := toString (nowMs / 1000)
  let durationDays := "10"
  let eip712 := createEIP712 keypair.publicKey contractAddresses
    startTimeStamp durationDays
  let signature := signFn eip712
  let handleContractPairs : List HandleContractPair :=
    [{ handle := handleX, contractAddress := contractAddr },
     { handle := handleY, contractAddress := contractAddr }]
  (eip712,
   { handleContractPairs := handleContractPairs
     privateKey := keypair.privateKey
     publicKey := keypair.publicKey
     signature := stripHexMarker signature
     contractAddresses := contractAddresses
     userAddress := address
     startTimeStamp := startTimeStamp
     durationDays := durationDays })

end GridGameApp

namespace EncryptedMapGame

/-- Helper: the two-select clamp agrees with the reference clamp
`min (max v 1) 10` on every natural number. -/
theorem clampCoordinate_eq_specClamp (v : Nat) :
    clampCoordinate v = specClamp v := by
  simp only [clampCoordinate, specClamp, MIN_COORDINATE, MAX_COORDINATE]
  split_ifs <;> omega

/-- Helper: the clamp output always lies in [1, 10]. -/
theorem clampCoordinate_range (v : Nat) :
    1 ≤ clampCoordinate v ∧ clampCoordinate v ≤ 10 := by
  simp only [clampCoordinate, MIN_COORDINATE, MAX_COORDINATE]
  split_ifs <;> omega

/-- Helper: on an 8-bit draw the join-path coordinate computes
`r % 10 + 1` (the widening, the wrap at 2^32 and the narrowing wrap at 2^8
are all identities on these values). -/
theorem randomCoordinateValue_eq (r : Nat) (h : r < 2 ^ 32) :
    randomCoordinateValue r = r % 10 + 1 := by
  simp only [randomCoordinateValue, MIN_COORDINATE, MAX_COORDINATE]
  rw [Nat.mod_eq_of_lt h]
  have h2 : r % 10 < 10 := Nat.mod_lt _ (by norm_num)
  rw [Nat.mod_eq_of_lt (a := r % 10 + 1) (by omega)]
  exact Nat.mod_eq_of_lt (by omega)

/-- Helper: the join-path coordinate lies in [1, 10] for every draw. -/
theorem randomCoordinateValue_range (r : Nat) :
    1 ≤ randomCoordinateValue r ∧ randomCoordinateValue r ≤ 10 := by
  simp only [randomCoordinateValue, MIN_COORDINATE, MAX_COORDINATE]
  have h2 : r % 2 ^ 32 % 10 < 10 := Nat.mod_lt _ (by norm_num)
  rw [Nat.mod_eq_of_lt (a := r % 2 ^ 32 % 10 + 1) (by omega)]
  rw [Nat.mod_eq_of_lt (by omega)]
  omega

/-- Helper: executing one command updates `hasJoined a` to true exactly
when it already was true or the command is a join by `a` that succeeds. -/
theorem hasJoined_runCmd (s : LedgerState) (a : Addr) (c : Cmd) :
    hasJoined (runCmd s c) a = (hasJoined s a || cmdJoinOk s a c) := by
  cases c with
  | join caller rx ry =>
      by_cases hact : (s.players caller).active
      · simp [hasJoined, runCmd, stepResult, joinGame, cmdJoinOk, hact]
      · by_cases hca : a = caller
        · subst hca
          simp [hasJoined, runCmd, stepResult, joinGame, cmdJoinOk, hact]
        · have hca2 : ¬caller = a := fun h => hca h.symm
          simp [hasJoined, runCmd, stepResult, joinGame, cmdJoinOk, hact,
            hca, hca2]
  | move caller x y =>
      by_cases hact : (s.players caller).active
      · by_cases hca : a = caller
        · subst hca
          simp [hasJoined, runCmd, stepResult, move, cmdJoinOk, hact]
        · simp [hasJoined, runCmd, stepResult, move, cmdJoinOk, hact, hca]
      · simp [hasJoined, runCmd, stepResult, move, cmdJoinOk, hact]

/-- Helper: over a trace, `hasJoined a` holds exactly when it held at the
start or some command of the trace is a successful join by `a`. -/
theorem hasJoined_execTrace (a : Addr) (cs : List Cmd) (s : LedgerState) :
    hasJoined (execTrace s cs) a = (hasJoined s a || traceJoinOk s a cs) := by
  induction cs generalizing s with
  | nil => simp [execTrace, traceJoinOk]
  | cons c cs ih =>
      simp only [execTrace, traceJoinOk]
      rw [ih, hasJoined_runCmd]
      cases hasJoined s a <;> simp

/-- Grid invariant: every active record stores coordinates that decrypt
into [1, 10] on both axes. -/
def GridInv (s : LedgerState) : Prop :=
  ∀ a : Addr, (s.players a).active = true →
    1 ≤ (s.players a).x.value ∧ (s.players a).x.value ≤ 10 ∧
    1 ≤ (s.players a).y.value ∧ (s.players a).y.value ≤ 10

/-- Helper: the invariant holds at deployment (no record is active). -/
theorem gridInv_initial : GridInv initialState := by
  intro a h
  simp [initialState, emptyPosition] at h

/-- Helper: every command preserves the grid invariant. -/
theorem gridInv_runCmd (s : LedgerState) (c : Cmd) (hinv : GridInv s) :
    GridInv (runCmd s c) := by
  cases c with
  | join caller rx ry =>
      by_cases hact : (s.players caller).active
      · simpa [runCmd, stepResult, joinGame, hact] using hinv
      · intro a
        simp only [runCmd, stepResult, joinGame, hact, Bool.false_eq_true,
          if_false]
        by_cases hca : a = caller
        · subst hca
          simp only [if_pos rfl]
          intro _
          exact ⟨(randomCoordinateValue_range rx).1,
            (randomCoordinateValue_range rx).2,
            (randomCoordinateValue_range ry).1,
            (randomCoordinateValue_range ry).2⟩
        · simp only [if_neg hca]
          exact hinv a
  | move caller x y =>
      by_cases hact : (s.players caller).active
      · intro a
        simp only [runCmd, stepResult, move, hact, Bool.not_true,
          Bool.false_eq_true, if_false]
        by_cases hca : a = caller
        · subst hca
          simp only [if_pos rfl]
          intro _
          exact ⟨(clampCoordinate_range x).1, (clampCoordinate_range x).2,
            (clampCoordinate_range y).1, (clampCoordinate_range y).2⟩
        · simp only [if_neg hca]
          exact hinv a
      · simpa [runCmd, stepResult, move, hact] using hinv

/-- Helper: the invariant propagates along any trace. -/
theorem gridInv_execTrace (cs : List Cmd) (s : LedgerState)
    (hinv : GridInv s) : GridInv (execTrace s cs) := by
  induction cs generalizing s with
  | nil => exact hinv
  | cons c cs ih => exact ih (runCmd s c) (gridInv_runCmd s c hinv)

/-- C1: Grid-bounds state invariant.  In every state reachable from
deployment by any sequence of joinGame and move calls by any identities,
every record with `active = true` stores coordinates whose decrypted values
lie in [1, 10]; no plaintext runtime check is involved, the bound holds by
construction of the stored values. -/
theorem C1_grid_bounds_invariant (cs : List Cmd) (a : Addr)
    (h : ((execTrace initialState cs).players a).active = true) :
    1 ≤ ((execTrace initialState cs).players a).x.value ∧
    ((execTrace initialState cs).players a).x.value ≤ 10 ∧
    1 ≤ ((execTrace initialState cs).players a).y.value ∧
    ((execTrace initialState cs).players a).y.value ≤ 10 :=
  gridInv_execTrace cs initialState gridInv_initial a h

/-- Witness for C1 at the trace consisting of a single join. -/
theorem C1_grid_bounds_invariant_witness :
    1 ≤ ((execTrace initialState [Cmd.join 0 3 7]).players 0).x.value ∧
    ((execTrace initialState [Cmd.join 0 3 7]).players 0).x.value ≤ 10 ∧
    1 ≤ ((execTrace initialState [Cmd.join 0 3 7]).players 0).y.value ∧
    ((execTrace initialState [Cmd.join 0 3 7]).players 0).y.value ≤ 10 :=
  C1_grid_bounds_invariant [Cmd.join 0 3 7] 0 (by decide)

/-- C2: Move clamp correctness.  In any state, for a joined caller and
8-bit plaintexts x and y, move succeeds, and the stored position — which is
exactly what getPlayerPosition returns afterwards, for any observer —
decrypts to (clamp x, clamp y) with clamp v = min (max v 1) 10; moreover
the two-step select sequence equals this reference clamp on every value.
Quantifying over the pre-state covers any number of prior moves. -/
theorem C2_move_clamp_correct (s : LedgerState) (caller observer x y : Nat)
    (hact : (s.players caller).active = true)
    (_hx : x < 256) (_hy : y < 256) :
    (∀ v : Nat, clampCoordinate v = min (max v 1) 10) ∧
    (∃ s2, move s caller x y = Except.ok s2) ∧
    move s caller x y = Except.ok (runCmd s (Cmd.move caller x y)) ∧
    getPlayerPosition (runCmd s (Cmd.move caller x y)) observer caller =
      Except.ok (((runCmd s (Cmd.move caller x y)).players caller).x,
        ((runCmd s (Cmd.move caller x y)).players caller).y) ∧
    ((runCmd s (Cmd.move caller x y)).players caller).x.value =
      min (max x 1) 10 ∧
    ((runCmd s (Cmd.move caller x y)).players caller).y.value =
      min (max y 1) 10 := by
  have hclamp : ∀ v : Nat, clampCoordinate v = min (max v 1) 10 := by
    intro v
    rw [clampCoordinate_eq_specClamp]
    simp [specClamp, MIN_COORDINATE, MAX_COORDINATE]
  have hmove : move s caller x y =
      Except.ok (runCmd s (Cmd.move caller x y)) := by
    simp [move, runCmd, stepResult, hact]
  refine ⟨hclamp, ⟨_, hmove⟩, hmove, ?_, ?_, ?_⟩ <;>
    simp [move, runCmd, stepResult, getPlayerPosition, hact, hclamp]

/-- Witness for C2 after one join, with the boundary inputs 0 and 42 from
the spec, checking the stored pair decrypts to (1, 10). -/
theorem C2_move_clamp_correct_witness :
    move (execTrace initialState [Cmd.join 1 0 0]) 1 0 42 =
      Except.ok (runCmd (execTrace initialState [Cmd.join 1 0 0])
        (Cmd.move 1 0 42)) ∧
    getPlayerPosition (runCmd (execTrace initialState [Cmd.join 1 0 0])
        (Cmd.move 1 0 42)) 2 1 =
      Except.ok
        (((runCmd (execTrace initialState [Cmd.join 1 0 0])
            (Cmd.move 1 0 42)).players 1).x,
         ((runCmd (execTrace initialState [Cmd.join 1 0 0])
            (Cmd.move 1 0 42)).players 1).y) ∧
    ((runCmd (execTrace initialState [Cmd.join 1 0 0])
        (Cmd.move 1 0 42)).players 1).x.value = min (max 0 1) 10 ∧
    ((runCmd (execTrace initialState [Cmd.join 1 0 0])
        (Cmd.move 1 0 42)).players 1).y.value = min (max 42 1) 10 ∧
    ((runCmd (execTrace initialState [Cmd.join 1 0 0])
        (Cmd.move 1 0 42)).players 1).x.value = 1 ∧
    ((runCmd (execTrace initialState [Cmd.join 1 0 0])
        (Cmd.move 1 0 42)).players 1).y.value = 10 :=
  ⟨(C2_move_clamp_correct (execTrace initialState [Cmd.join 1 0 0]) 1 2 0 42
      (by decide) (by decide) (by decide)).2.2.1,
   (C2_move_clamp_correct (execTrace initialState [Cmd.join 1 0 0]) 1 2 0 42
      (by decide) (by decide) (by decide)).2.2.2.1,
   (C2_move_clamp_correct (execTrace initialState [Cmd.join 1 0 0]) 1 2 0 42
      (by decide) (by decide) (by decide)).2.2.2.2.1,
   (C2_move_clamp_correct (execTrace initialState [Cmd.join 1 0 0]) 1 2 0 42
      (by decide) (by decide) (by decide)).2.2.2.2.2,
   by decide, by decide⟩

/-- C3: Join randomness range.  For every 8-bit value of each underlying
random draw, joinGame succeeds for a fresh caller and the coordinates it
stores decrypt into [1, 10] on both axes. -/
theorem C3_join_randomness_range (s : LedgerState) (caller rx ry : Nat)
    (hact : (s.players caller).active = false)
    (_hrx : rx < 256) (_hry : ry < 256) :
    (∃ s2, joinGame s caller rx ry = Except.ok s2) ∧
    joinGame s caller rx ry = Except.ok (runCmd s (Cmd.join caller rx ry)) ∧
    1 ≤ ((runCmd s (Cmd.join caller rx ry)).players caller).x.value ∧
    ((runCmd s (Cmd.join caller rx ry)).players caller).x.value ≤ 10 ∧
    1 ≤ ((runCmd s (Cmd.join caller rx ry)).players caller).y.value ∧
    ((runCmd s (Cmd.join caller rx ry)).players caller).y.value ≤ 10 := by
  have hjoin : joinGame s caller rx ry =
      Except.ok (runCmd s (Cmd.join caller rx ry)) := by
    simp [joinGame, runCmd, stepResult, hact]
  refine ⟨⟨_, hjoin⟩, hjoin, ?_⟩
  simp only [joinGame, runCmd, stepResult, hact, Bool.false_eq_true,
    if_false, if_pos rfl]
  exact ⟨(randomCoordinateValue_range rx).1,
    (randomCoordinateValue_range rx).2,
    (randomCoordinateValue_range ry).1,
    (randomCoordinateValue_range ry).2⟩

/-- Witness for C3 at a fresh state with draws 255 and 0. -/
theorem C3_join_randomness_range_witness :
    joinGame initialState 4 255 0 =
      Except.ok (runCmd initialState (Cmd.join 4 255 0)) ∧
    1 ≤ ((runCmd initialState (Cmd.join 4 255 0)).players 4).x.value ∧
    ((runCmd initialState (Cmd.join 4 255 0)).players 4).x.value ≤ 10 ∧
    1 ≤ ((runCmd initialState (Cmd.join 4 255 0)).players 4).y.value ∧
    ((runCmd initialState (Cmd.join 4 255 0)).players 4).y.value ≤ 10 :=
  (C3_join_randomness_range initialState 4 255 0 (by decide) (by decide)
    (by decide)).2

/-- C4: Uniform clamping on both paths.  For every 8-bit random draw the
coordinate the join path stores equals the two-select clamp applied to the
raw candidate (r mod 10) + 1, both as a pointwise identity on
`randomCoordinateValue` and for the record joinGame actually writes. -/
theorem C4_uniform_clamping (s : LedgerState) (caller rx ry : Nat)
    (hact : (s.players caller).active = false)
    (hrx : rx < 256) (hry : ry < 256) :
    (∀ r : Nat, r < 256 →
      randomCoordinateValue r = clampCoordinate (r % 10 + 1)) ∧
    ((runCmd s (Cmd.join caller rx ry)).players caller).x.value =
      clampCoordinate (rx % 10 + 1) ∧
    ((runCmd s (Cmd.join caller rx ry)).players caller).y.value =
      clampCoordinate (ry % 10 + 1) := by
  have hpoint : ∀ r : Nat, r < 256 →
      randomCoordinateValue r = clampCoordinate (r % 10 + 1) := by
    intro r hr
    rw [randomCoordinateValue_eq r (by omega), clampCoordinate_eq_specClamp]
    have h2 : r % 10 < 10 := Nat.mod_lt _ (by norm_num)
    simp [specClamp, MIN_COORDINATE, MAX_COORDINATE]
    omega
  refine ⟨hpoint, ?_, ?_⟩ <;>
    simp [joinGame, runCmd, stepResult, hact, hpoint rx hrx, hpoint ry hry]

/-- Witness for C4 at a fresh state with draws 9 and 200. -/
theorem C4_uniform_clamping_witness :
    ((runCmd initialState (Cmd.join 2 9 200)).players 2).x.value =
      clampCoordinate (9 % 10 + 1) ∧
    ((runCmd initialState (Cmd.join 2 9 200)).players 2).y.value =
      clampCoordinate (200 % 10 + 1) ∧
    ((runCmd initialState (Cmd.join 2 9 200)).players 2).x.value = 10 ∧
    ((runCmd initialState (Cmd.join 2 9 200)).players 2).y.value = 1 :=
  ⟨(C4_uniform_clamping initialState 2 9 200 (by decide) (by decide)
      (by decide)).2.1,
   (C4_uniform_clamping initialState 2 9 200 (by decide) (by decide)
      (by decide)).2.2,
   by decide, by decide⟩

/-- C5: Double-join rejection with atomicity.  When the caller is already
active, joinGame fails with PlayerAlreadyJoined and, by revert semantics,
the ledger state after the failed call is the state before it: the mapping,
the access-control list and the handle counter are all unchanged. -/
theorem C5_double_join_rejected (s : LedgerState) (caller rx ry : Nat)
    (hact : (s.players caller).active = true) :
    joinGame s caller rx ry = Except.error GameError.PlayerAlreadyJoined ∧
    runCmd s (Cmd.join caller rx ry) = s := by
  constructor <;> simp [joinGame, runCmd, stepResult, hact]

/-- Witness for C5: a second join by the same identity right after its
first join. -/
theorem C5_double_join_rejected_witness :
    joinGame (execTrace initialState [Cmd.join 3 5 6]) 3 7 8 =
      Except.error GameError.PlayerAlreadyJoined ∧
    runCmd (execTrace initialState [Cmd.join 3 5 6]) (Cmd.join 3 7 8) =
      execTrace initialState [Cmd.join 3 5 6] :=
  C5_double_join_rejected (execTrace initialState [Cmd.join 3 5 6]) 3 7 8
    (by decide)

/-- C6: Not-registered rejection.  getPlayerPosition fails with
PlayerNotRegistered exactly when the queried identity is not active, move
fails with PlayerNotRegistered exactly when the caller is not active (so a
joined identity never sees that error from either operation), and a failed
move leaves the state unchanged. -/
theorem C6_not_registered (s : LedgerState) (caller player x y : Nat) :
    (getPlayerPosition s caller player =
        Except.error GameError.PlayerNotRegistered ↔
      (s.players player).active = false) ∧
    (move s caller x y = Except.error GameError.PlayerNotRegistered ↔
      (s.players caller).active = false) ∧
    ((s.players caller).active = false →
      runCmd s (Cmd.move caller x y) = s) := by
  refine ⟨?_, ?_, ?_⟩
  · by_cases hact : (s.players player).active <;>
      simp [getPlayerPosition, hact]
  · by_cases hact : (s.players caller).active <;>
      simp [move, hact]
  · intro hact
    simp [runCmd, stepResult, move, hact]

/-- Witness for C6 on the deployed state, where nobody has joined. -/
theorem C6_not_registered_witness :
    (getPlayerPosition initialState 1 2 =
        Except.error GameError.PlayerNotRegistered ↔
      (initialState.players 2).active = false) ∧
    (move initialState 1 3 4 =
        Except.error GameError.PlayerNotRegistered ↔
      (initialState.players 1).active = false) ∧
    runCmd initialState (Cmd.move 1 3 4) = initialState :=
  ⟨(C6_not_registered initialState 1 2 3 4).1,
   (C6_not_registered initialState 1 2 3 4).2.1,
   (C6_not_registered initialState 1 2 3 4).2.2 (by decide)⟩

/-- C7: Permissionless handle read.  The result of getPlayerPosition
depends only on the queried record: two arbitrary callers querying the
same player in two states agreeing on that record get identical results
(no caller check is performed), and for an active player the result is
exactly the two stored ciphertext handles. -/
theorem C7_permissionless_read (s t : LedgerState) (c1 c2 player : Addr)
    (h : s.players player = t.players player) :
    getPlayerPosition s c1 player = getPlayerPosition t c2 player ∧
    ((s.players player).active = true →
      getPlayerPosition s c1 player =
        Except.ok ((s.players player).x, (s.players player).y)) := by
  constructor
  · simp [getPlayerPosition, h]
  · intro hact
    simp [getPlayerPosition, hact]

/-- Witness for C7: two distinct callers reading a joined player in the
same state. -/
theorem C7_permissionless_read_witness :
    getPlayerPosition (execTrace initialState [Cmd.join 0 1 2]) 5 0 =
      getPlayerPosition (execTrace initialState [Cmd.join 0 1 2]) 9 0 ∧
    getPlayerPosition (execTrace initialState [Cmd.join 0 1 2]) 5 0 =
      Except.ok (((execTrace initialState [Cmd.join 0 1 2]).players 0).x,
        ((execTrace initialState [Cmd.join 0 1 2]).players 0).y) :=
  ⟨(C7_permissionless_read (execTrace initialState [Cmd.join 0 1 2])
      (execTrace initialState [Cmd.join 0 1 2]) 5 9 0 rfl).1,
   (C7_permissionless_read (execTrace initialState [Cmd.join 0 1 2])
      (execTrace initialState [Cmd.join 0 1 2]) 5 9 0 rfl).2 (by decide)⟩

/-- C9: Per-identity frame condition.  A joinGame or move executed by p
(whether it succeeds or reverts) leaves the complete record of every other
identity q unchanged: handles, decrypted values and active flag. -/
theorem C9_frame_condition (s : LedgerState) (p q rx ry x y : Nat)
    (hpq : p ≠ q) :
    (runCmd s (Cmd.join p rx ry)).players q = s.players q ∧
    (runCmd s (Cmd.move p x y)).players q = s.players q := by
  have hqp : ¬q = p := fun h => hpq h.symm
  constructor
  · by_cases hact : (s.players p).active <;>
      simp [runCmd, stepResult, joinGame, hact, hqp]
  · by_cases hact : (s.players p).active <;>
      simp [runCmd, stepResult, move, hact, hqp]

/-- Witness for C9: identity 1 joins and moves, identity 2 is untouched. -/
theorem C9_frame_condition_witness :
    (runCmd initialState (Cmd.join 1 3 4)).players 2 =
      initialState.players 2 ∧
    (runCmd initialState (Cmd.move 1 5 6)).players 2 =
      initialState.players 2 :=
  C9_frame_condition initialState 1 2 3 4 5 6 (by decide)

/-- C10: hasJoined is total and never fails.  hasJoined is a plain boolean
read (it is a pure function of the state in this embedding, so it modifies
nothing): on a never-joined identity it reads the mapping default and
returns false while getPlayerPosition fails on that same input, and after
any trace from deployment it returns true exactly when the trace contains
a successful joinGame by that identity. -/
theorem C10_hasJoined_total (cs : List Cmd) (a c : Addr) :
    hasJoined initialState a = false ∧
    getPlayerPosition initialState c a =
      Except.error GameError.PlayerNotRegistered ∧
    hasJoined (execTrace initialState cs) a = traceJoinOk initialState a cs := by
  refine ⟨rfl, rfl, ?_⟩
  rw [hasJoined_execTrace]
  simp [hasJoined, initialState, emptyPosition]

end EncryptedMapGame

namespace GridGameApp

/-- Occurrence test: whether `pat` occurs as a contiguous block anywhere in
`s`, matching what the JavaScript replace scans for. -/
def hasOccur (pat : List Char) : List Char → Bool
  | [] => pat.isPrefixOf []
  | c :: cs => pat.isPrefixOf (c :: cs) || hasOccur pat cs

/-- Helper: replacing the first occurrence of "0x" in a string that starts
with "0x" strips exactly that two-character marker. -/
theorem jsReplaceFirstList_strip (rest : List Char) :
    jsReplaceFirstList ['0', 'x'] ('0' :: 'x' :: rest) = rest := by
  simp [jsReplaceFirstList, List.isPrefixOf]

/-- Helper: when the pattern occurs nowhere, the replace is the
identity. -/
theorem jsReplaceFirstList_id (pat s : List Char)
    (h : hasOccur pat s = false) : jsReplaceFirstList pat s = s := by
  induction s with
  | nil => rfl
  | cons c cs ih =>
      simp only [hasOccur, Bool.or_eq_false_iff] at h
      simp [jsReplaceFirstList, h.1, ih h.2]

/-- Helper: rebuilding a string from its character data is the
identity. -/
theorem string_mk_data (s : String) : String.mk s.data = s := by
  cases s
  rfl

/-- C8: Decryption-request construction.  The decryption flow builds the
authorization message over exactly the ephemeral public key, the
contract-address scope, the current time in seconds since epoch, and the
fixed 10-day duration, and it submits to the relayer exactly the
(handle, contractAddress) pair list for both coordinate handles, the
ephemeral private key and public key, the signature with a leading 0x
marker stripped (and unchanged when none occurs), the same scope, the
requester identity, and the same start timestamp and duration. -/
theorem C8_decrypt_request_construction (contractAddr hx hy : String)
    (kp : Keypair) (nowMs : Nat) (signFn : EIP712Message → String)
    (addr : String) (msg : EIP712Message) (req : UserDecryptArgs)
    (hbuild : buildDecryptRequest contractAddr hx hy kp nowMs signFn addr =
      (msg, req)) :
    msg.publicKey = kp.publicKey ∧
    msg.contractAddresses = [contractAddr] ∧
    msg.startTimeStamp = toString (nowMs / 1000) ∧
    msg.durationDays = "10" ∧
    req.handleContractPairs =
      [⟨hx, contractAddr⟩, ⟨hy, contractAddr⟩] ∧
    req.privateKey = kp.privateKey ∧
    req.publicKey = kp.publicKey ∧
    req.signature = stripHexMarker (signFn msg) ∧
    req.contractAddresses = msg.contractAddresses ∧
    req.userAddress = addr ∧
    req.startTimeStamp = msg.startTimeStamp ∧
    req.durationDays = msg.durationDays ∧
    (∀ rest : List Char, (signFn msg).data = '0' :: 'x' :: rest →
      req.signature = String.mk rest) ∧
    (hasOccur ['0', 'x'] (signFn msg).data = false →
      req.signature = signFn msg) := by
  have hm : msg =
      (buildDecryptRequest contractAddr hx hy kp nowMs signFn addr).1 := by
    rw [hbuild]
  have hr : req =
      (buildDecryptRequest contractAddr hx hy kp nowMs signFn addr).2 := by
    rw [hbuild]
  subst hm
  subst hr
  have hfst : (buildDecryptRequest contractAddr hx hy kp nowMs signFn
      addr).1 = createEIP712 kp.publicKey [contractAddr]
      (toString (nowMs / 1000)) "10" := rfl
  refine ⟨rfl, rfl, rfl, rfl, rfl, rfl, rfl, rfl, rfl, rfl, rfl, rfl,
    ?_, ?_⟩
  · intro rest hsig
    rw [hfst] at hsig
    show stripHexMarker _ = String.mk rest
    rw [stripHexMarker, hsig, jsReplaceFirstList_strip]
  · intro hno
    rw [hfst] at hno
    show stripHexMarker _ = _
    rw [stripHexMarker, jsReplaceFirstList_id _ _ hno, hfst,
      string_mk_data]

/-- Witness for C8 at concrete inputs, with a signer returning a
0x-prefixed signature. -/
theorem C8_decrypt_request_construction_witness :
    buildDecryptRequest "0xC" "hx1" "hy1" ⟨"pk", "sk"⟩ 2500
        (fun _ => "0xsig") "0xAB" =
      ((buildDecryptRequest "0xC" "hx1" "hy1" ⟨"pk", "sk"⟩ 2500
          (fun _ => "0xsig") "0xAB").1,
       (buildDecryptRequest "0xC" "hx1" "hy1" ⟨"pk", "sk"⟩ 2500
          (fun _ => "0xsig") "0xAB").2) ∧
    (buildDecryptRequest "0xC" "hx1" "hy1" ⟨"pk", "sk"⟩ 2500
        (fun _ => "0xsig") "0xAB").1.publicKey = "pk" ∧
    (buildDecryptRequest "0xC" "hx1" "hy1" ⟨"pk", "sk"⟩ 2500
        (fun _ => "0xsig") "0xAB").1.startTimeStamp = "2" ∧
    (buildDecryptRequest "0xC" "hx1" "hy1" ⟨"pk", "sk"⟩ 2500
        (fun _ => "0xsig") "0xAB").1.durationDays = "10" ∧
    (buildDecryptRequest "0xC" "hx1" "hy1" ⟨"pk", "sk"⟩ 2500
        (fun _ => "0xsig") "0xAB").2.signature = "sig" :=
  ⟨rfl,
   (C8_decrypt_request_construction "0xC" "hx1" "hy1" ⟨"pk", "sk"⟩ 2500
      (fun _ => "0xsig") "0xAB" _ _ rfl).1,
   by decide, by decide, by decide⟩

end GridGameApp
